import Mathlib

/-!
# Verification of the plate-search-game core

Shallow embedding of the plate-number decomposition and rarity/percentile
engine of the `plate-search-game` repository:

* `convert_csv_records_to_database.py` — `split_plate_into_parts`,
  `insert_csv_line_into_db` (normalization of a raw record into a
  `PlateRecord`);
* `rarity_checker.py` — `get_latest_production_year_and_appearance_count`,
  `_get_sorted_counts`, `estimate_difficulty_level`, `check_number_rarity`.

The SQLite store is embedded as a `List PlateRecord`; the SQL queries the
code issues are embedded as the corresponding list operations.  The final
percentile arithmetic in `estimate_difficulty_level` is performed by Python
in IEEE-754 binary64 floating point (`idx / 1000 * 100`), so it is embedded
exactly, via a model of round-to-nearest-ties-to-even binary64 rounding on
rationals (the values arising never overflow nor reach the subnormal range).
-/

/-- A stored row of the `records` table:
`(production_year, plate_number, first, second, third)`. -/
structure PlateRecord where
  production_year : Int
  plate_number : Nat
  first : Nat
  second : Nat
  third : Nat
deriving DecidableEq

/-- Numeric value of a decimal digit character. -/
def digitVal (c : Char) : Nat := c.toNat - 48

/-- Value of a digit string, as Python's `int` computes it on a string of
decimal digits. -/
def strToNat (s : List Char) : Nat := s.foldl (fun a c => 10 * a + digitVal c) 0

/-- Python's `int(str)` on a field, restricted to the forms that occur in the
data: an optional minus sign followed by at least one decimal digit; any
other content fails (`ValueError`). -/
def parse_int (s : List Char) : Option Int :=
  match s with
  | '-' :: rest =>
      if rest ≠ [] ∧ rest.all Char.isDigit then some (-(strToNat rest : Int)) else none
  | _ =>
      if s ≠ [] ∧ s.all Char.isDigit then some (strToNat s : Int) else none

/-- Python's `plate_number.lstrip("0")`: drop every leading `'0'`. -/
def lstrip0 (s : List Char) : List Char := s.dropWhile (· == '0')

/-- `split_plate_into_parts` from `convert_csv_records_to_database.py`.
Python slices with negative indices are embedded length-relatively:
`s[2:-2]` is `take (len - 4) (drop 2 s)` and `s[-2:]` is `drop (len - 2) s`
(similarly with 3 for the 8-digit branch).  For any other length the Python
function falls through and returns `None`. -/
def split_plate_into_parts (s : List Char) : Option (Nat × Nat × Nat) :=
  if s.length = 7 then
    some (strToNat (s.take 2),
          strToNat ((s.drop 2).take (s.length - 4)),
          strToNat (s.drop (s.length - 2)))
  else if s.length = 8 then
    some (strToNat (s.take 3),
          strToNat ((s.drop 3).take (s.length - 6)),
          strToNat (s.drop (s.length - 3)))
  else
    none

/-- The ways `insert_csv_line_into_db` fails before reaching the `INSERT`:
unpacking `None` from `split_plate_into_parts` raises `TypeError`
(the plate length after stripping is neither 7 nor 8), and
`int(record["shnat_yitzur"])` raises `ValueError` on a non-numeric year. -/
inductive InsertError where
  | invalidPlateLength
  | invalidYear
deriving DecidableEq

/-- `insert_csv_line_into_db` from `convert_csv_records_to_database.py`:
strip leading zeros, split into the three parts, parse the year, and append
the row to the store.  Any failure raises before the `INSERT` executes, so
an erroneous record leaves the store untouched. -/
def insert_csv_line_into_db (plate year : List Char) (db : List PlateRecord) :
    Except InsertError (List PlateRecord) :=
  let stripped := lstrip0 plate
  match split_plate_into_parts stripped with
  | none => .error .invalidPlateLength
  | some (f, s, t) =>
    match parse_int year with
    | none => .error .invalidYear
    | some y => .ok (db ++ [⟨y, strToNat stripped, f, s, t⟩])

/-- Normalization of a raw plate string: strip leading zeros, then split.
This is the plate-side composition performed by `insert_csv_line_into_db`. -/
def normalize_plate (s : List Char) : Option (Nat × Nat × Nat) :=
  split_plate_into_parts (lstrip0 s)

/-- The SQL predicate `first=:1 OR second=:1 OR third=:1` on one row. -/
def segmentMatch (r : PlateRecord) (v : Nat) : Bool :=
  r.first == v || r.second == v || r.third == v

/-- `SELECT COUNT(*) FROM records WHERE first=:1 OR second=:1 OR third=:1`:
the number of rows matching the disjunction (each row counted once). -/
def appearance_count (db : List PlateRecord) (v : Nat) : Nat :=
  (db.filter (fun r => segmentMatch r v)).length

/-- `SELECT MAX(production_year) ... WHERE first=:1 OR second=:1 OR third=:1`:
SQL `MAX` over the matching rows, `NULL` (here `none`) when none match. -/
def latest_production_year (db : List PlateRecord) (v : Nat) : Option Int :=
  ((db.filter (fun r => segmentMatch r v)).map (fun r => r.production_year)).max?

/-- `get_latest_production_year_and_appearance_count` from
`rarity_checker.py`: one query returning `(MAX(production_year), COUNT(*))`. -/
def get_latest_production_year_and_appearance_count
    (db : List PlateRecord) (v : Nat) : Option Int × Nat :=
  (latest_production_year db v, appearance_count db v)

/-- `_get_sorted_counts` from `rarity_checker.py`: the appearance count of
every value in `range(1000)`, sorted in descending order
(`numbers.sort(reverse=True)`). -/
def get_sorted_counts (db : List PlateRecord) : List Nat :=
  List.insertionSort (fun a b => b ≤ a) ((List.range 1000).map (appearance_count db))

/-- `check_number_rarity` from `rarity_checker.py`: range-check, then return
`(appearance_count, latest_production_year)`. -/
def check_number_rarity (db : List PlateRecord) (n : Int) :
    Except String (Nat × Option Int) :=
  if n < 0 ∨ n > 999 then .error "Number should be between 0 and 999"
  else
    let qr := get_latest_production_year_and_appearance_count db n.toNat
    .ok (qr.2, qr.1)

/-!
## Exact model of the IEEE-754 binary64 arithmetic in the percentile formula

`estimate_difficulty_level` computes
`math.floor(idx / 1000 * 100) + 1`
where `idx / 1000` and `... * 100` are correctly rounded binary64
operations.  A correctly rounded operation on exactly representable
operands is: compute the exact rational result, then round it to 53
significant binary digits with round-to-nearest, ties-to-even.  All the
nonnegative rationals arising are kept as numerator/denominator pairs of
naturals, so every step is plain `Nat` arithmetic.  The values here lie in
`[2 ^ (-10), 2 ^ 7)`, far from both the overflow threshold and the
subnormal range, so this is the exact IEEE-754 semantics of the Python
computation. -/

/-- Floor of the base-2 logarithm of a natural, by structural recursion on a
fuel argument (`fuel ≥ n` suffices, since `n` halves at every step). -/
def natLog2Fuel : Nat → Nat → Nat
  | 0, _ => 0
  | fuel + 1, n => if 2 ≤ n then natLog2Fuel fuel (n / 2) + 1 else 0

/-- Floor of the base-2 logarithm of a natural (`0` for `n = 0`). -/
def natLog2 (n : Nat) : Nat := natLog2Fuel n n

/-- Whether `2 ^ g ≤ a / b` for naturals `a, b ≥ 1` and an integer `g`,
decided by cross-multiplying with the positive power. -/
def twoPowLeFrac (a b : Nat) (g : Int) : Bool :=
  if 0 ≤ g then b * 2 ^ g.toNat ≤ a else b ≤ a * 2 ^ (-g).toNat

/-- Floor of the base-2 logarithm of `a / b`, for `a, b ≥ 1`: the guess
`log2 a - log2 b` is exact or one too high (since `2 ^ (g-1) < a/b < 2 ^ (g+1)`),
and the comparison settles which. -/
def fracLog2 (a b : Nat) : Int :=
  let g : Int := (natLog2 a : Int) - (natLog2 b : Int)
  if twoPowLeFrac a b g then g else g - 1

/-- Round the fraction `a / b` (with `b ≥ 1`) to the nearest natural,
ties to even. -/
def rndNearestEven (a b : Nat) : Nat :=
  let q := a / b
  let r := a % b
  if 2 * r < b then q
  else if b < 2 * r then q + 1
  else if q % 2 = 0 then q else q + 1

/-- Round the nonnegative fraction `a / b` to the nearest IEEE-754 binary64
value (round-to-nearest, ties-to-even, 53-bit significand), returned as an
exact numerator/denominator pair.  The significand is the nearest integer to
`(a / b) * 2 ^ (52 - e)` where `e = floor(log2 (a / b))`; ties land on an
even significand, matching the IEEE default rounding direction attribute. -/
def roundToBinary64 (a b : Nat) : Nat × Nat :=
  if a = 0 ∨ b = 0 then (0, 1)
  else
    let t : Int := 52 - fracLog2 a b
    if 0 ≤ t then (rndNearestEven (a * 2 ^ t.toNat) b, 2 ^ t.toNat)
    else (rndNearestEven a (b * 2 ^ (-t).toNat) * 2 ^ (-t).toNat, 1)

/-- `math.floor(idx / n * 100) + 1` exactly as Python computes it: the
division `idx / n` and the multiplication by 100 are binary64 operations
(the ints convert to binary64 exactly at these magnitudes), and
`math.floor` of a nonnegative fraction is natural division. -/
def pyPercentile (idx n : Nat) : Nat :=
  let x := roundToBinary64 idx n
  let y := roundToBinary64 (x.1 * 100) x.2
  y.1 / y.2 + 1

/-- `estimate_difficulty_level` from `rarity_checker.py`: range-check, build
the descending sorted count list, look up the first occurrence of the
queried value's count (`list.index`), and convert the rank to a percentile
with the floating-point formula. -/
def estimate_difficulty_level (db : List PlateRecord) (n : Int) :
    Except String Nat :=
  if n < 0 ∨ n > 999 then .error "Number should be between 0 and 999"
  else
    let sorted := get_sorted_counts db
    let c := appearance_count db n.toNat
    .ok (pyPercentile (sorted.indexOf c) sorted.length)

deriving instance DecidableEq for Except

/-!
## Helper lemmas on digit strings
-/

theorem strToNat_foldl (b : List Char) (i : Nat) :
    b.foldl (fun a c => 10 * a + digitVal c) i = i * 10 ^ b.length + strToNat b := by
  induction b generalizing i with
  | nil => simp [strToNat]
  | cons c b ih =>
    show (b.foldl _ (10 * i + digitVal c)) = _
    rw [ih (10 * i + digitVal c)]
    have hcb : strToNat (c :: b) = digitVal c * 10 ^ b.length + strToNat b := by
      show (b.foldl _ (10 * 0 + digitVal c)) = _
      rw [ih (10 * 0 + digitVal c)]
      ring
    rw [hcb]
    simp [List.length_cons, pow_succ]
    ring

theorem strToNat_append (a b : List Char) :
    strToNat (a ++ b) = strToNat a * 10 ^ b.length + strToNat b := by
  show (a ++ b).foldl _ 0 = _
  rw [List.foldl_append]
  exact strToNat_foldl b _

theorem digitVal_le_of_isDigit {c : Char} (h : c.isDigit = true) : digitVal c ≤ 9 := by
  unfold Char.isDigit at h
  rw [Bool.and_eq_true, decide_eq_true_eq, decide_eq_true_eq] at h
  have h2 : c.val.toNat ≤ 57 := by
    have := h.2
    rw [UInt32.le_def, BitVec.le_def] at this
    exact this
  unfold digitVal Char.toNat
  omega

theorem strToNat_foldl_lt (b : List Char) (h : ∀ c ∈ b, c.isDigit = true) (i : Nat) :
    b.foldl (fun a c => 10 * a + digitVal c) i < (i + 1) * 10 ^ b.length := by
  induction b generalizing i with
  | nil => simp
  | cons c b ih =>
    show (b.foldl _ (10 * i + digitVal c)) < _
    have hc : digitVal c ≤ 9 := digitVal_le_of_isDigit (h c (by simp))
    have hb : ∀ c ∈ b, c.isDigit = true := fun x hx => h x (by simp [hx])
    calc b.foldl _ (10 * i + digitVal c)
        < (10 * i + digitVal c + 1) * 10 ^ b.length := ih hb _
      _ ≤ ((i + 1) * 10) * 10 ^ b.length := by
          apply Nat.mul_le_mul_right
          omega
      _ = (i + 1) * 10 ^ (c :: b).length := by
          rw [List.length_cons, pow_succ]
          ring

theorem strToNat_lt_pow (s : List Char) (h : ∀ c ∈ s, c.isDigit = true) :
    strToNat s < 10 ^ s.length := by
  have := strToNat_foldl_lt s h 0
  simpa [strToNat] using this

/-!
## C2, C7, C8, C3 — the ingestion normalizer
-/

/-- C2: on a digit string of length exactly 7, `split_plate_into_parts`
decomposes it as the integer values of the slices `[0:2]`, `[2:5]`, `[5:7]`;
on length exactly 8, as the values of `[0:3]`, `[3:5]`, `[5:8]`. -/
theorem C2_split_decomposes_by_slices (s : List Char) :
    (s.length = 7 →
      split_plate_into_parts s
        = some (strToNat (s.take 2), strToNat ((s.drop 2).take 3),
                strToNat (s.drop 5))) ∧
    (s.length = 8 →
      split_plate_into_parts s
        = some (strToNat (s.take 3), strToNat ((s.drop 3).take 2),
                strToNat (s.drop 5))) := by
  constructor
  · intro h
    simp [split_plate_into_parts, h]
  · intro h
    simp [split_plate_into_parts, h]

theorem C2_split_decomposes_by_slices_witness :
    split_plate_into_parts ['1', '2', '3', '4', '5', '6', '7'] = some (12, 345, 67) ∧
    split_plate_into_parts ['1', '2', '3', '4', '5', '6', '7', '8'] = some (123, 45, 678) := by
  constructor
  · rw [(C2_split_decomposes_by_slices ['1', '2', '3', '4', '5', '6', '7']).1 (by decide)]
    decide
  · rw [(C2_split_decomposes_by_slices ['1', '2', '3', '4', '5', '6', '7', '8']).2 (by decide)]
    decide

theorem split_plate_7 (s : List Char) (h : s.length = 7) :
    split_plate_into_parts s
      = some (strToNat (s.take 2), strToNat ((s.drop 2).take 3), strToNat (s.drop 5)) := by
  simp [split_plate_into_parts, h]

theorem split_plate_8 (s : List Char) (h : s.length = 8) :
    split_plate_into_parts s
      = some (strToNat (s.take 3), strToNat ((s.drop 3).take 2), strToNat (s.drop 5)) := by
  simp [split_plate_into_parts, h]

theorem split_plate_eq_none (s : List Char) (h7 : s.length ≠ 7) (h8 : s.length ≠ 8) :
    split_plate_into_parts s = none := by
  simp [split_plate_into_parts, h7, h8]

theorem strToNat_take_drop (s : List Char) (n : Nat) :
    strToNat s = strToNat (s.take n) * 10 ^ (s.length - n) + strToNat (s.drop n) := by
  conv_lhs => rw [← List.take_append_drop n s]
  rw [strToNat_append, List.length_drop]

theorem value_identity7 (s : List Char) (h : s.length = 7) :
    strToNat (s.take 2) * 100000 + strToNat ((s.drop 2).take 3) * 100 + strToNat (s.drop 5)
      = strToNat s := by
  have e1 := strToNat_take_drop s 2
  have e2 := strToNat_take_drop (s.drop 2) 3
  have e3 : (s.drop 2).drop 3 = s.drop 5 := by rw [List.drop_drop]
  have l2 : (s.drop 2).length = 5 := by rw [List.length_drop, h]
  rw [l2, e3] at e2
  rw [h] at e1
  rw [e1, e2]
  norm_num
  omega

theorem value_identity8 (s : List Char) (h : s.length = 8) :
    strToNat (s.take 3) * 100000 + strToNat ((s.drop 3).take 2) * 1000 + strToNat (s.drop 5)
      = strToNat s := by
  have e1 := strToNat_take_drop s 3
  have e2 := strToNat_take_drop (s.drop 3) 2
  have e3 : (s.drop 3).drop 2 = s.drop 5 := by rw [List.drop_drop]
  have l2 : (s.drop 3).length = 5 := by rw [List.length_drop, h]
  rw [l2, e3] at e2
  rw [h] at e1
  rw [e1, e2]
  norm_num
  omega

/-- C7: on a valid (all-digit) 7-digit plate string the decomposed triple
`(first, second, third)` has widths 2/3/2 and satisfies
`first * 100000 + second * 100 + third = int(s)`; on a valid 8-digit string
the widths are 3/2/3 and `first * 100000 + second * 1000 + third = int(s)`. -/
theorem C7_decomposition_value_identity (s : List Char)
    (hd : ∀ c ∈ s, c.isDigit = true) :
    (s.length = 7 →
      split_plate_into_parts s
        = some (strToNat (s.take 2), strToNat ((s.drop 2).take 3), strToNat (s.drop 5)) ∧
      strToNat (s.take 2) < 100 ∧ strToNat ((s.drop 2).take 3) < 1000 ∧
      strToNat (s.drop 5) < 100 ∧
      strToNat (s.take 2) * 100000 + strToNat ((s.drop 2).take 3) * 100 +
        strToNat (s.drop 5) = strToNat s) ∧
    (s.length = 8 →
      split_plate_into_parts s
        = some (strToNat (s.take 3), strToNat ((s.drop 3).take 2), strToNat (s.drop 5)) ∧
      strToNat (s.take 3) < 1000 ∧ strToNat ((s.drop 3).take 2) < 100 ∧
      strToNat (s.drop 5) < 1000 ∧
      strToNat (s.take 3) * 100000 + strToNat ((s.drop 3).take 2) * 1000 +
        strToNat (s.drop 5) = strToNat s) := by
  constructor
  · intro h
    have hf : ∀ c ∈ s.take 2, c.isDigit = true := fun c hc => hd c (List.take_subset _ _ hc)
    have hm : ∀ c ∈ (s.drop 2).take 3, c.isDigit = true :=
      fun c hc => hd c (List.drop_subset _ _ (List.take_subset _ _ hc))
    have ht : ∀ c ∈ s.drop 5, c.isDigit = true := fun c hc => hd c (List.drop_subset _ _ hc)
    have bf := strToNat_lt_pow _ hf
    have bm := strToNat_lt_pow _ hm
    have bt := strToNat_lt_pow _ ht
    rw [List.length_take, h] at bf
    rw [List.length_take, List.length_drop, h] at bm
    rw [List.length_drop, h] at bt
    norm_num at bf bm bt
    exact ⟨split_plate_7 s h, bf, bm, bt, value_identity7 s h⟩
  · intro h
    have hf : ∀ c ∈ s.take 3, c.isDigit = true := fun c hc => hd c (List.take_subset _ _ hc)
    have hm : ∀ c ∈ (s.drop 3).take 2, c.isDigit = true :=
      fun c hc => hd c (List.drop_subset _ _ (List.take_subset _ _ hc))
    have ht : ∀ c ∈ s.drop 5, c.isDigit = true := fun c hc => hd c (List.drop_subset _ _ hc)
    have bf := strToNat_lt_pow _ hf
    have bm := strToNat_lt_pow _ hm
    have bt := strToNat_lt_pow _ ht
    rw [List.length_take, h] at bf
    rw [List.length_take, List.length_drop, h] at bm
    rw [List.length_drop, h] at bt
    norm_num at bf bm bt
    exact ⟨split_plate_8 s h, bf, bm, bt, value_identity8 s h⟩

theorem C7_decomposition_value_identity_witness :
    strToNat (['1', '2', '3', '4', '5', '6', '7'].take 2) * 100000 +
      strToNat ((['1', '2', '3', '4', '5', '6', '7'].drop 2).take 3) * 100 +
      strToNat (['1', '2', '3', '4', '5', '6', '7'].drop 5)
      = strToNat ['1', '2', '3', '4', '5', '6', '7'] ∧
    strToNat (['1', '2', '3', '4', '5', '6', '7', '8'].take 3) * 100000 +
      strToNat ((['1', '2', '3', '4', '5', '6', '7', '8'].drop 3).take 2) * 1000 +
      strToNat (['1', '2', '3', '4', '5', '6', '7', '8'].drop 5)
      = strToNat ['1', '2', '3', '4', '5', '6', '7', '8'] :=
  ⟨((C7_decomposition_value_identity ['1', '2', '3', '4', '5', '6', '7']
      (by decide)).1 (by decide)).2.2.2.2,
   ((C7_decomposition_value_identity ['1', '2', '3', '4', '5', '6', '7', '8']
      (by decide)).2 (by decide)).2.2.2.2⟩

theorem lstrip0_idem (s : List Char) : lstrip0 (lstrip0 s) = lstrip0 s :=
  List.dropWhile_idempotent _ _

/-- C8: for an 8-character plate string starting with `'0'` whose stripped
form has length 7, normalization gives the same triple as normalizing the
already-stripped string directly, and it succeeds. -/
theorem C8_strip_idempotent (s : List Char)
    (h8 : ('0' :: s).length = 8) (h7 : (lstrip0 ('0' :: s)).length = 7) :
    normalize_plate ('0' :: s) = normalize_plate (lstrip0 ('0' :: s)) ∧
    ∃ t, normalize_plate ('0' :: s) = some t := by
  constructor
  · unfold normalize_plate
    rw [lstrip0_idem]
  · unfold normalize_plate
    exact ⟨_, split_plate_7 _ h7⟩

theorem C8_strip_idempotent_witness :
    normalize_plate ['0', '1', '2', '3', '4', '5', '6', '7']
      = normalize_plate (lstrip0 ['0', '1', '2', '3', '4', '5', '6', '7']) ∧
    ∃ t, normalize_plate ['0', '1', '2', '3', '4', '5', '6', '7'] = some t :=
  C8_strip_idempotent ['1', '2', '3', '4', '5', '6', '7'] (by decide) (by decide)

/-- C3: a record whose plate, after stripping leading zeros, has length
other than 7 or 8 (in particular the empty string left by an all-zero
plate), or whose year field is non-numeric, makes `insert_csv_line_into_db`
fail, and no record is inserted into the store. -/
theorem C3_invalid_record_rejected (plate year : List Char) (db : List PlateRecord)
    (h : ((lstrip0 plate).length ≠ 7 ∧ (lstrip0 plate).length ≠ 8) ∨
      parse_int year = none) :
    (∃ e, insert_csv_line_into_db plate year db = .error e) ∧
    ∀ db', insert_csv_line_into_db plate year db ≠ .ok db' := by
  have key : insert_csv_line_into_db plate year db = .error .invalidPlateLength ∨
      insert_csv_line_into_db plate year db = .error .invalidYear := by
    rcases hs : split_plate_into_parts (lstrip0 plate) with _ | ⟨f, sec, t⟩
    · left
      simp [insert_csv_line_into_db, hs]
    · rcases h with ⟨h7, h8⟩ | hy
      · rw [split_plate_eq_none _ h7 h8] at hs
        exact absurd hs (by simp)
      · right
        simp [insert_csv_line_into_db, hs, hy]
  rcases key with k | k <;> exact ⟨⟨_, k⟩, fun db' => by simp [k]⟩

theorem C3_invalid_record_rejected_witness :
    ∃ e, insert_csv_line_into_db ['0', '0', '0', '0', '0', '0', '0']
      ['2', '0', '2', '0'] [] = .error e :=
  (C3_invalid_record_rejected ['0', '0', '0', '0', '0', '0', '0'] ['2', '0', '2', '0'] []
    (Or.inl (by decide))).1

/-!
## C5, C6, C4, C10 — point queries and range checking
-/

/-- C5: the appearance count is the number of stored records whose `first`,
`second` or `third` equals the value (logical OR), and a record matching the
value in several segments still contributes exactly one. -/
theorem C5_count_rows_matching_or :
    (∀ (db : List PlateRecord) (v : Nat),
      appearance_count db v
        = db.countP (fun r => decide (r.first = v ∨ r.second = v ∨ r.third = v))) ∧
    ∀ (db : List PlateRecord) (r : PlateRecord) (v : Nat),
      segmentMatch r v = true →
      appearance_count (r :: db) v = appearance_count db v + 1 := by
  constructor
  · intro db v
    have hfun : (fun r => segmentMatch r v)
        = (fun r : PlateRecord => decide (r.first = v ∨ r.second = v ∨ r.third = v)) := by
      funext r
      rw [Bool.eq_iff_iff]
      simp [segmentMatch, or_assoc]
    rw [appearance_count, List.countP_eq_length_filter, hfun]
  · intro db r v h
    simp [appearance_count, List.filter_cons, h]

theorem C5_count_rows_matching_or_witness :
    appearance_count [⟨2000, 0, 5, 5, 9⟩] 5 = appearance_count [] 5 + 1 :=
  C5_count_rows_matching_or.2 [] ⟨2000, 0, 5, 5, 9⟩ 5 (by decide)

theorem max?_int_spec {l : List Int} {y : Int} :
    l.max? = some y ↔ y ∈ l ∧ ∀ b ∈ l, b ≤ y := by
  haveI : Std.Antisymm ((· : Int) ≤ ·) := ⟨fun h1 h2 => Int.le_antisymm h1 h2⟩
  exact List.max?_eq_some_iff (fun _ => le_refl _) (fun a b => max_choice a b)
    (fun _ _ _ => max_le_iff)

/-- C6: for an in-range value, `check_number_rarity` returns the pair
`(appearance_count, latest_production_year)`, where the year is absent
exactly when the count is zero and otherwise is the maximum production year
among the matching records. -/
theorem C6_latest_year_of_matching (db : List PlateRecord) (n : Int)
    (h0 : 0 ≤ n) (h9 : n ≤ 999) :
    check_number_rarity db n
      = .ok (appearance_count db n.toNat, latest_production_year db n.toNat) ∧
    (latest_production_year db n.toNat = none ↔ appearance_count db n.toNat = 0) ∧
    ∀ y, latest_production_year db n.toNat = some y →
      (∃ r, r ∈ db ∧ segmentMatch r n.toNat = true ∧ r.production_year = y) ∧
      ∀ r, r ∈ db → segmentMatch r n.toNat = true → r.production_year ≤ y := by
  refine ⟨?_, ?_, ?_⟩
  · have hc : ¬ (n < 0 ∨ n > 999) := by omega
    simp [check_number_rarity, get_latest_production_year_and_appearance_count, hc]
  · rw [latest_production_year, appearance_count, List.max?_eq_none_iff,
      List.map_eq_nil_iff, List.length_eq_zero]
  · intro y hy
    rw [latest_production_year, max?_int_spec] at hy
    obtain ⟨hmem, hub⟩ := hy
    constructor
    · obtain ⟨r, hrf, hry⟩ := List.mem_map.mp hmem
      obtain ⟨hrdb, hrm⟩ := List.mem_filter.mp hrf
      exact ⟨r, hrdb, hrm, hry⟩
    · intro r hrdb hrm
      exact hub _ (List.mem_map_of_mem _ (List.mem_filter.mpr ⟨hrdb, hrm⟩))

theorem C6_latest_year_of_matching_witness :
    check_number_rarity [⟨2015, 0, 12, 345, 67⟩, ⟨2018, 0, 12, 345, 67⟩] 345
      = .ok (2, some 2018) := by
  rw [(C6_latest_year_of_matching [⟨2015, 0, 12, 345, 67⟩, ⟨2018, 0, 12, 345, 67⟩] 345
    (by decide) (by decide)).1]
  decide

/-- C4: both `estimate_difficulty_level` and `check_number_rarity` fail with
the range error for any integer outside `[0, 999]`, and neither fails for
any value inside `[0, 999]`, boundaries included. -/
theorem C4_range_error (db : List PlateRecord) (n : Int) :
    ((n < 0 ∨ n > 999) →
      estimate_difficulty_level db n = .error "Number should be between 0 and 999" ∧
      check_number_rarity db n = .error "Number should be between 0 and 999") ∧
    (0 ≤ n → n ≤ 999 →
      (∃ p, estimate_difficulty_level db n = .ok p) ∧
      ∃ s, check_number_rarity db n = .ok s) := by
  constructor
  · intro h
    constructor
    · simp [estimate_difficulty_level, h]
    · simp [check_number_rarity, h]
  · intro h0 h9
    have hc : ¬ (n < 0 ∨ n > 999) := by omega
    constructor
    · unfold estimate_difficulty_level
      rw [if_neg hc]
      exact ⟨_, rfl⟩
    · unfold check_number_rarity
      rw [if_neg hc]
      exact ⟨_, rfl⟩

theorem C4_range_error_witness :
    estimate_difficulty_level [] 1000 = .error "Number should be between 0 and 999" ∧
    check_number_rarity [] (-1) = .error "Number should be between 0 and 999" ∧
    (∃ p, estimate_difficulty_level [] 0 = .ok p) ∧
    ∃ s, check_number_rarity [] 999 = .ok s :=
  ⟨((C4_range_error [] 1000).1 (by omega)).1,
   ((C4_range_error [] (-1)).1 (by omega)).2,
   ((C4_range_error [] 0).2 (by omega) (by omega)).1,
   ((C4_range_error [] 999).2 (by omega) (by omega)).2⟩

theorem length_get_sorted_counts (db : List PlateRecord) :
    (get_sorted_counts db).length = 1000 := by
  unfold get_sorted_counts
  rw [List.length_insertionSort, List.length_map, List.length_range]

theorem mem_get_sorted_counts (db : List PlateRecord) {v : Nat} (h : v < 1000) :
    appearance_count db v ∈ get_sorted_counts db := by
  unfold get_sorted_counts
  rw [List.Perm.mem_iff (List.perm_insertionSort _ _)]
  exact List.mem_map_of_mem _ (List.mem_range.mpr h)

theorem indexOf_lt_of_mem {l : List Nat} {a : Nat} (h : a ∈ l) :
    l.indexOf a < l.length :=
  List.findIdx_lt_length_of_exists ⟨a, h, by simp⟩

/-- C10: for any store and any value below 1000, the value's appearance
count is itself an element of the 1000-entry sorted count list (it is the
count of that value computed by the same query), so the first-occurrence
rank lookup lands strictly inside the list and the percentile computation
cannot fail on an in-range value. -/
theorem C10_rank_lookup_always_succeeds (db : List PlateRecord) (v : Nat)
    (h : v < 1000) :
    appearance_count db v ∈ get_sorted_counts db ∧
    (get_sorted_counts db).indexOf (appearance_count db v)
      < (get_sorted_counts db).length ∧
    (get_sorted_counts db).length = 1000 :=
  ⟨mem_get_sorted_counts db h,
   indexOf_lt_of_mem (mem_get_sorted_counts db h),
   length_get_sorted_counts db⟩

theorem C10_rank_lookup_always_succeeds_witness :
    appearance_count [] 0 ∈ get_sorted_counts [] ∧
    (get_sorted_counts []).indexOf (appearance_count [] 0)
      < (get_sorted_counts []).length ∧
    (get_sorted_counts []).length = 1000 :=
  C10_rank_lookup_always_succeeds [] 0 (by decide)

/-!
## C1, C9 — the percentile computation

`storeRank290` drives the queried value's count to rank 290 of the sorted
count list, one of the three ranks (290, 570, 580) where the binary64
evaluation of `idx / 1000 * 100` falls just below the exact value
`idx / 10` and `math.floor` loses one: `290 / 1000` rounds to the double
`0.29000000000000000444089209850062616169452667236328125`, whose product
with 100 rounds to `28.999999999999996447286321199499070644378662109375`.

The sorted count lists of the two test stores are established symbolically
(each store's count function is computed once by structural induction, and
the sort is identified through sortedness and permutation), so that only
the small final percentile arithmetic is evaluated by the kernel.
-/

set_option maxRecDepth 100000
set_option maxHeartbeats 4000000

theorem appearance_count_eq_countP (db : List PlateRecord) (v : Nat) :
    appearance_count db v = db.countP (fun r => segmentMatch r v) :=
  (List.countP_eq_length_filter _ db).symm

theorem appearance_count_append (l1 l2 : List PlateRecord) (v : Nat) :
    appearance_count (l1 ++ l2) v = appearance_count l1 v + appearance_count l2 v := by
  rw [appearance_count_eq_countP, appearance_count_eq_countP, appearance_count_eq_countP,
    List.countP_append]

theorem appearance_count_singleton (r : PlateRecord) (v : Nat) :
    appearance_count [r] v = if segmentMatch r v then 1 else 0 := by
  rw [appearance_count_eq_countP, List.countP_cons]
  simp

theorem appearance_count_replicate (r : PlateRecord) (n v : Nat) :
    appearance_count (List.replicate n r) v = if segmentMatch r v then n else 0 := by
  induction n with
  | zero => simp [appearance_count]
  | succ n ih =>
    rw [List.replicate_succ,
      show (r :: List.replicate n r) = [r] ++ List.replicate n r from rfl,
      appearance_count_append, appearance_count_singleton, ih]
    by_cases h : segmentMatch r v = true <;> simp [h]
    omega

/-- The first 96 records of the rank-290 store: record `i` has segments
`(3i, 3i+1, 3i+2)`, covering each value in `[0, 3m)` exactly once. -/
def tripleStore (m : Nat) : List PlateRecord :=
  (List.range m).map (fun i => ⟨2000, 0, 3 * i, 3 * i + 1, 3 * i + 2⟩)

theorem count_tripleStore (m v : Nat) :
    appearance_count (tripleStore m) v = if v < 3 * m then 1 else 0 := by
  induction m with
  | zero => simp [tripleStore, appearance_count]
  | succ m ih =>
    have hsplit : tripleStore (m + 1)
        = tripleStore m ++ [⟨2000, 0, 3 * m, 3 * m + 1, 3 * m + 2⟩] := by
      unfold tripleStore
      rw [List.range_succ, List.map_append]
      rfl
    rw [hsplit, appearance_count_append, ih, appearance_count_singleton]
    simp only [segmentMatch, Bool.or_eq_true, beq_iff_eq]
    split_ifs <;> omega

/-- 97 records: `tripleStore 96` covers each segment value in `[0, 287]`
once, the last record adds values 288 and 289.  Every value in `[0, 289]`
has appearance count 1 and every other value count 0, so the count 0 of the
queried value 999 first occurs at rank 290 of the sorted count list. -/
def storeRank290 : List PlateRecord :=
  tripleStore 96 ++ [⟨2000, 0, 288, 289, 288⟩]

theorem count_storeRank290 (v : Nat) :
    appearance_count storeRank290 v = if v < 290 then 1 else 0 := by
  unfold storeRank290
  rw [appearance_count_append, count_tripleStore, appearance_count_singleton]
  simp only [segmentMatch, Bool.or_eq_true, beq_iff_eq]
  split_ifs <;> omega

/-- Records producing the segment-value counts `{7: 5, 8: 5, 9: 1}` of the
spec's percentile test property. -/
def store9 : List PlateRecord :=
  List.replicate 5 ⟨2000, 0, 7, 7, 7⟩ ++ List.replicate 5 ⟨2001, 0, 8, 8, 8⟩ ++
    [⟨2002, 0, 9, 9, 9⟩]

theorem count_store9 (v : Nat) :
    appearance_count store9 v
      = if v = 7 then 5 else if v = 8 then 5 else if v = 9 then 1 else 0 := by
  unfold store9
  rw [appearance_count_append, appearance_count_append, appearance_count_replicate,
    appearance_count_replicate, appearance_count_singleton]
  simp only [segmentMatch, Bool.or_eq_true, beq_iff_eq]
  split_ifs <;> omega

theorem map_range_split (f : Nat → Nat) (a b : Nat) :
    (List.range (a + b)).map f
      = (List.range a).map f ++ (List.range b).map (fun j => f (a + j)) := by
  rw [List.range_add, List.map_append, List.map_map]
  rfl

theorem map_range_const (f : Nat → Nat) (a c : Nat) (h : ∀ v, v < a → f v = c) :
    (List.range a).map f = List.replicate a c := by
  rw [List.eq_replicate_iff]
  refine ⟨by simp, ?_⟩
  intro b hb
  obtain ⟨v, hv, rfl⟩ := List.mem_map.mp hb
  exact h v (List.mem_range.mp hv)

theorem counts_map_storeRank290 :
    (List.range 1000).map (appearance_count storeRank290)
      = List.replicate 290 1 ++ List.replicate 710 0 := by
  have h1 : (List.range 290).map (appearance_count storeRank290)
      = List.replicate 290 1 :=
    map_range_const _ _ _ (fun v hv => by rw [count_storeRank290]; simp [hv])
  have h2 : (List.range 710).map (fun j => appearance_count storeRank290 (290 + j))
      = List.replicate 710 0 := by
    refine map_range_const _ _ _ (fun v hv => ?_)
    rw [count_storeRank290]
    have hge : ¬ (290 + v < 290) := by omega
    simp [hge]
  rw [show (1000 : Nat) = 290 + 710 from rfl, map_range_split, h1, h2]

theorem counts_map_store9 :
    (List.range 1000).map (appearance_count store9)
      = List.replicate 7 0 ++ 5 :: 5 :: 1 :: List.replicate 990 0 := by
  have h1 : (List.range 7).map (appearance_count store9) = List.replicate 7 0 := by
    refine map_range_const _ _ _ (fun v hv => ?_)
    rw [count_store9]
    split_ifs <;> omega
  have e0 : appearance_count store9 (7 + 0) = 5 := by rw [count_store9]; decide
  have e1 : appearance_count store9 (7 + 1) = 5 := by rw [count_store9]; decide
  have e2 : appearance_count store9 (7 + 2) = 1 := by rw [count_store9]; decide
  have etail : (List.range 990).map (fun j => appearance_count store9 (7 + (3 + j)))
      = List.replicate 990 0 := by
    refine map_range_const _ _ _ (fun v hv => ?_)
    rw [count_store9]
    split_ifs <;> omega
  have h2 : (List.range 993).map (fun j => appearance_count store9 (7 + j))
      = 5 :: 5 :: 1 :: List.replicate 990 0 := by
    rw [show (993 : Nat) = 3 + 990 from rfl, map_range_split,
      show List.range 3 = [0, 1, 2] from rfl]
    simp only [List.map_cons, List.map_nil, e0, e1, e2]
    rw [etail]
    rfl
  rw [show (1000 : Nat) = 7 + 993 from rfl, map_range_split, h1, h2]

theorem get_sorted_counts_eq_of (db : List PlateRecord) (target : List Nat)
    (hperm : ((List.range 1000).map (appearance_count db)).Perm target)
    (hsorted : List.Sorted (fun x y : Nat => y ≤ x) target) :
    get_sorted_counts db = target := by
  haveI : IsTrans Nat (fun x y : Nat => y ≤ x) := ⟨fun a b c h1 h2 => le_trans h2 h1⟩
  haveI : IsAntisymm Nat (fun x y : Nat => y ≤ x) := ⟨fun a b h1 h2 => le_antisymm h2 h1⟩
  haveI : IsTotal Nat (fun x y : Nat => y ≤ x) := ⟨fun a b => le_total b a⟩
  exact List.eq_of_perm_of_sorted ((List.perm_insertionSort _ _).trans hperm)
    (List.sorted_insertionSort _ _) hsorted

theorem sorted_desc_replicate_append (m k a b : Nat) (h : b ≤ a) :
    List.Sorted (fun x y : Nat => y ≤ x)
      (List.replicate m a ++ List.replicate k b) := by
  refine List.pairwise_append.mpr ⟨?_, ?_, ?_⟩
  · exact List.pairwise_replicate.mpr (Or.inr (le_refl a))
  · exact List.pairwise_replicate.mpr (Or.inr (le_refl b))
  · intro x hx y hy
    rw [List.eq_of_mem_replicate hx, List.eq_of_mem_replicate hy]
    exact h

theorem storeRank290_sorted_eval :
    get_sorted_counts storeRank290 = List.replicate 290 1 ++ List.replicate 710 0 := by
  refine get_sorted_counts_eq_of _ _ ?_ (sorted_desc_replicate_append _ _ _ _ (by omega))
  rw [counts_map_storeRank290]

theorem sorted_store9_target :
    List.Sorted (fun x y : Nat => y ≤ x) (5 :: 5 :: 1 :: List.replicate 997 0) := by
  refine List.pairwise_cons.mpr ⟨?_, List.pairwise_cons.mpr ⟨?_,
    List.pairwise_cons.mpr ⟨?_, ?_⟩⟩⟩
  · intro b hb
    rcases List.mem_cons.mp hb with rfl | hb
    · omega
    rcases List.mem_cons.mp hb with rfl | hb
    · omega
    have := List.eq_of_mem_replicate hb
    omega
  · intro b hb
    rcases List.mem_cons.mp hb with rfl | hb
    · omega
    have := List.eq_of_mem_replicate hb
    omega
  · intro b hb
    have := List.eq_of_mem_replicate hb
    omega
  · exact List.pairwise_replicate.mpr (Or.inr (le_refl 0))

theorem store9_sorted_eval :
    get_sorted_counts store9 = 5 :: 5 :: 1 :: List.replicate 997 0 := by
  refine get_sorted_counts_eq_of _ _ ?_ sorted_store9_target
  rw [counts_map_store9]
  have heq : (5 :: 5 :: 1 :: List.replicate 990 0) ++ List.replicate 7 (0 : Nat)
      = 5 :: 5 :: 1 :: List.replicate 997 0 := by
    rw [List.cons_append, List.cons_append, List.cons_append, ← List.replicate_add]
  exact List.perm_append_comm.trans (heq ▸ List.Perm.refl _)

theorem indexOf_cons_of_ne {a b : Nat} (l : List Nat) (h : (b == a) = false) :
    (b :: l).indexOf a = l.indexOf a + 1 := by
  show List.findIdx (fun x => x == a) (b :: l) = List.findIdx (fun x => x == a) l + 1
  simp [List.findIdx_cons, h]

theorem indexOf_cons_self_nat (a : Nat) (l : List Nat) : (a :: l).indexOf a = 0 := by
  show List.findIdx (fun x => x == a) (a :: l) = 0
  simp [List.findIdx_cons]

theorem indexOf_append_replicate_ne (a b : Nat) (h : (b == a) = false)
    (m : Nat) (l : List Nat) :
    (List.replicate m b ++ l).indexOf a = m + l.indexOf a := by
  induction m with
  | zero => simp
  | succ m ih =>
    rw [List.replicate_succ, List.cons_append, indexOf_cons_of_ne _ h, ih]
    omega

theorem storeRank290_count_999 : appearance_count storeRank290 999 = 0 := by
  rw [count_storeRank290]
  decide

theorem storeRank290_rank :
    (List.replicate 290 1 ++ List.replicate 710 0).indexOf 0 = 290 := by
  rw [indexOf_append_replicate_ne 0 1 (by decide) 290,
    show List.replicate 710 0 = 0 :: List.replicate 709 0 from rfl,
    indexOf_cons_self_nat]

theorem storeRank290_percentile_code :
    estimate_difficulty_level storeRank290 999 = Except.ok 29 := by
  unfold estimate_difficulty_level
  rw [if_neg (by omega : ¬ ((999 : Int) < 0 ∨ (999 : Int) > 999))]
  show Except.ok (pyPercentile ((get_sorted_counts storeRank290).indexOf
      (appearance_count storeRank290 (Int.toNat 999)))
      (get_sorted_counts storeRank290).length) = Except.ok 29
  rw [show Int.toNat 999 = 999 from rfl, storeRank290_count_999,
    storeRank290_sorted_eval, storeRank290_rank]
  decide

/-- C1: at `storeRank290` and value 999 the code returns percentile 29,
while the specified formula `floor(rank / 1000 * 100) + 1` evaluated
exactly at the same first-occurrence rank (290) gives 30: the binary64
arithmetic of `estimate_difficulty_level` drops one percentile at rank
290 (and likewise at 570 and 580). -/
theorem C1_percentile_formula_divergence :
    estimate_difficulty_level storeRank290 999 = Except.ok 29 ∧
    (get_sorted_counts storeRank290).indexOf (appearance_count storeRank290 999)
        * 100 / 1000 + 1 = 30 := by
  refine ⟨storeRank290_percentile_code, ?_⟩
  rw [storeRank290_count_999, storeRank290_sorted_eval, storeRank290_rank]

theorem store9_length_sorted : (5 :: 5 :: 1 :: List.replicate 997 0).length = 1000 := by
  rw [List.length_cons, List.length_cons, List.length_cons, List.length_replicate]

theorem store9_eval_9 : estimate_difficulty_level store9 9 = Except.ok 1 := by
  unfold estimate_difficulty_level
  rw [if_neg (by omega : ¬ ((9 : Int) < 0 ∨ (9 : Int) > 999))]
  show Except.ok (pyPercentile ((get_sorted_counts store9).indexOf
      (appearance_count store9 (Int.toNat 9)))
      (get_sorted_counts store9).length) = Except.ok 1
  rw [show appearance_count store9 (Int.toNat 9) = 1 from by rw [count_store9]; decide,
    store9_sorted_eval, store9_length_sorted,
    show (5 :: 5 :: 1 :: List.replicate 997 0).indexOf 1 = 2 from by
      rw [indexOf_cons_of_ne _ (by decide), indexOf_cons_of_ne _ (by decide),
        indexOf_cons_self_nat]]
  decide

theorem store9_eval_7 : estimate_difficulty_level store9 7 = Except.ok 1 := by
  unfold estimate_difficulty_level
  rw [if_neg (by omega : ¬ ((7 : Int) < 0 ∨ (7 : Int) > 999))]
  show Except.ok (pyPercentile ((get_sorted_counts store9).indexOf
      (appearance_count store9 (Int.toNat 7)))
      (get_sorted_counts store9).length) = Except.ok 1
  rw [show appearance_count store9 (Int.toNat 7) = 5 from by rw [count_store9]; decide,
    store9_sorted_eval, store9_length_sorted, indexOf_cons_self_nat]
  decide

theorem store9_eval_8 : estimate_difficulty_level store9 8 = Except.ok 1 := by
  unfold estimate_difficulty_level
  rw [if_neg (by omega : ¬ ((8 : Int) < 0 ∨ (8 : Int) > 999))]
  show Except.ok (pyPercentile ((get_sorted_counts store9).indexOf
      (appearance_count store9 (Int.toNat 8)))
      (get_sorted_counts store9).length) = Except.ok 1
  rw [show appearance_count store9 (Int.toNat 8) = 5 from by rw [count_store9]; decide,
    store9_sorted_eval, store9_length_sorted, indexOf_cons_self_nat]
  decide

/-- C9 fails as stated: on the `{7: 5, 8: 5, 9: 1}` store all three
percentiles evaluate to 1 — ranks 0, 0 and 2 all floor to the same
percentile — so `rarity_percentile(9)` is not strictly greater than
`rarity_percentile(7)`. -/
theorem C9_strict_rarity_counterexample :
    estimate_difficulty_level store9 9 = Except.ok 1 ∧
    estimate_difficulty_level store9 7 = Except.ok 1 ∧
    estimate_difficulty_level store9 8 = Except.ok 1 ∧
    ¬ (∀ p9 p7 : Nat, estimate_difficulty_level store9 9 = Except.ok p9 →
        estimate_difficulty_level store9 7 = Except.ok p7 → p7 < p9) := by
  refine ⟨store9_eval_9, store9_eval_7, store9_eval_8, fun hco => ?_⟩
  have h := hco 1 1 store9_eval_9 store9_eval_7
  omega

theorem pyPercentile_unit_range :
    ∀ k, k < 1000 → 1 ≤ pyPercentile k 1000 ∧ pyPercentile k 1000 ≤ 100 := by decide

theorem estimate_in_unit_range (db : List PlateRecord) (n : Int)
    (h0 : 0 ≤ n) (h9 : n ≤ 999) :
    ∃ p, estimate_difficulty_level db n = Except.ok p ∧ 1 ≤ p ∧ p ≤ 100 := by
  have hc : ¬ (n < 0 ∨ n > 999) := by omega
  have hv : n.toNat < 1000 := by omega
  have hlen := length_get_sorted_counts db
  have hidx := indexOf_lt_of_mem (mem_get_sorted_counts db hv)
  rw [hlen] at hidx
  refine ⟨pyPercentile ((get_sorted_counts db).indexOf (appearance_count db n.toNat))
      (get_sorted_counts db).length, ?_, ?_, ?_⟩
  · unfold estimate_difficulty_level
    rw [if_neg hc]
  · rw [hlen]
    exact (pyPercentile_unit_range _ hidx).1
  · rw [hlen]
    exact (pyPercentile_unit_range _ hidx).2

/-- C9 amended: on the `{7: 5, 8: 5, 9: 1}` store the rarer value's
percentile is greater than or equal to (here equal to, all three being 1)
the tied common values' percentiles, `rarity_percentile(7)` equals
`rarity_percentile(8)`, and for every store and in-range value the result
lies in `[1, 100]`. -/
theorem C9_tie_rule_and_unit_range :
    estimate_difficulty_level store9 7 = estimate_difficulty_level store9 8 ∧
    (∀ p9 p7 : Nat, estimate_difficulty_level store9 9 = Except.ok p9 →
      estimate_difficulty_level store9 7 = Except.ok p7 → p7 ≤ p9) ∧
    ∀ (db : List PlateRecord) (n : Int), 0 ≤ n → n ≤ 999 →
      ∃ p, estimate_difficulty_level db n = Except.ok p ∧ 1 ≤ p ∧ p ≤ 100 := by
  refine ⟨by rw [store9_eval_7, store9_eval_8], ?_, estimate_in_unit_range⟩
  intro p9 p7 h9 h7
  rw [store9_eval_9] at h9
  rw [store9_eval_7] at h7
  injection h9 with h9
  injection h7 with h7
  omega

theorem C9_tie_rule_and_unit_range_witness :
    ∃ p, estimate_difficulty_level [] 0 = Except.ok p ∧ 1 ≤ p ∧ p ≤ 100 :=
  C9_tie_rule_and_unit_range.2.2 [] 0 (by omega) (by omega)
